import Mathlib

/-!
Shallow embedding of `autonetkit/anm/edge.py` (class `NmEdge`), the edge-handle
abstraction of the AutoNetkit overlay network model, together with the minimal
contracts of its external collaborators (the NetworkX overlay graph container,
node and interface handles) as described in the specification.

Python-2 semantics are modelled where they matter: `bool(edge)` dispatches to
`__nonzero__`, and `hasattr` swallows every exception raised by a property
getter.  Python exceptions are modelled with `Except PyErr`; the spec's
MissingEdgeError and MissingBindingError both surface as Python `KeyError`,
and its TypeMismatchError as Python `TypeError`.
-/

/-- Python exception kinds that the edge handle can raise. -/
inductive PyErr where
  | keyError
  | attributeError
  | typeError
deriving DecidableEq, Repr

/-- Attribute values stored in edge attribute records (Python objects).
Dictionaries are modelled with string values, which covers the one dict the
edge handle manipulates: the `_ports` binding map from node id to
interface id. -/
inductive Val where
  | vstr (s : String)
  | vint (z : Int)
  | vbool (b : Bool)
  | vdict (m : List (String × String))
  | vnone
deriving DecidableEq, Repr

/-- An edge's attribute record: the per-edge mutable mapping owned by the
overlay graph container (a Python dict, insertion ordered). -/
abbrev AttrRecord := List (String × Val)

/-- `d.get(k)` on a Python dict: first binding for `k`, if any. -/
def recGet (r : AttrRecord) (k : String) : Option Val :=
  (r.find? (fun p => p.1 = k)).map (·.2)

/-- `d[k] = v` on a Python dict: replace the binding in place, else append. -/
def recSet (r : AttrRecord) (k : String) (v : Val) : AttrRecord :=
  if r.any (fun p => p.1 = k) then
    r.map (fun p => if p.1 = k then (k, v) else p)
  else
    r ++ [(k, v)]

/-- Lookup in a `_ports`-style dict keyed by node id. -/
def dictGet (m : List (String × String)) (k : String) : Option String :=
  (m.find? (fun p => p.1 = k)).map (·.2)

/-- Update of a `_ports`-style dict keyed by node id. -/
def dictSet (m : List (String × String)) (k : String) (v : String) :
    List (String × String) :=
  if m.any (fun p => p.1 = k) then
    m.map (fun p => if p.1 = k then (k, v) else p)
  else
    m ++ [(k, v)]

/-- Identifying key of an edge inside a NetworkX graph: `(src, dst, ekey)`.
For simple (non-multi) graphs the `ekey` component is ignored by lookups. -/
abbrev EdgeKey := String × String × Nat

/-- The overlay graph container for one overlay: a NetworkX `Graph` or
`MultiGraph`, modelled per the spec's collaborator contract as a multigraph
flag plus keyed edge storage with per-edge attribute records. -/
structure NxGraph where
  multigraph : Bool
  edges : List (EdgeKey × AttrRecord)
deriving DecidableEq, Repr

/-- `g.has_edge(s, d)`. -/
def NxGraph.has_edge (g : NxGraph) (s d : String) : Bool :=
  g.edges.any (fun p => p.1.1 = s ∧ p.1.2.1 = d)

/-- `g.has_edge(s, d, key=k)` on a multigraph. -/
def NxGraph.has_edge_key (g : NxGraph) (s d : String) (k : Nat) : Bool :=
  g.edges.any (fun p => p.1 = (s, d, k))

/-- `g.number_of_edges(s, d)`: how many parallel edges join `s` and `d`. -/
def NxGraph.number_of_edges (g : NxGraph) (s d : String) : Nat :=
  (g.edges.filter (fun p => p.1.1 = s ∧ p.1.2.1 = d)).length

/-- `g[s][d]` on a simple graph: the attribute record of the first edge
joining `s` and `d`. -/
def NxGraph.edgeData (g : NxGraph) (s d : String) : Option AttrRecord :=
  (g.edges.find? (fun p => p.1.1 = s ∧ p.1.2.1 = d)).map (·.2)

/-- `g[s][d][k]` on a multigraph: the attribute record of edge `(s, d, k)`. -/
def NxGraph.edgeDataKey (g : NxGraph) (s d : String) (k : Nat) : Option AttrRecord :=
  (g.edges.find? (fun p => p.1 = (s, d, k))).map (·.2)

/-- Helper for `NxGraph.setEdgeData`: replace the record of the first edge
joining `s` and `d` in an edge list. -/
def setEdgeList (s d : String) (r : AttrRecord) :
    List (EdgeKey × AttrRecord) → List (EdgeKey × AttrRecord)
  | [] => []
  | p :: rest =>
    if p.1.1 = s ∧ p.1.2.1 = d then (p.1, r) :: rest
    else p :: setEdgeList s d r rest

/-- Helper for `NxGraph.setEdgeDataKey`: replace the record of edge
`(s, d, k)` in an edge list. -/
def setEdgeListKey (s d : String) (k : Nat) (r : AttrRecord) :
    List (EdgeKey × AttrRecord) → List (EdgeKey × AttrRecord)
  | [] => []
  | p :: rest =>
    if p.1 = (s, d, k) then (p.1, r) :: rest
    else p :: setEdgeListKey s d k r rest

/-- Replace the attribute record of the first edge joining `s` and `d`
(the record `g[s][d]` is mutated in place in Python). -/
def NxGraph.setEdgeData (g : NxGraph) (s d : String) (r : AttrRecord) : NxGraph :=
  { g with edges := setEdgeList s d r g.edges }

/-- Replace the attribute record of multigraph edge `(s, d, k)`. -/
def NxGraph.setEdgeDataKey (g : NxGraph) (s d : String) (k : Nat) (r : AttrRecord) :
    NxGraph :=
  { g with edges := setEdgeListKey s d k r g.edges }

/-- `g.remove_edge(s, d)` on a simple graph / all-parallel removal:
drop every edge joining `s` and `d`. -/
def NxGraph.removeEdge (g : NxGraph) (s d : String) : NxGraph :=
  { g with edges := g.edges.filter (fun p => !(decide (p.1.1 = s ∧ p.1.2.1 = d))) }

/-- `g.remove_edge(s, d, key=k)` on a multigraph: drop exactly edge `(s, d, k)`. -/
def NxGraph.removeEdgeKey (g : NxGraph) (s d : String) (k : Nat) : NxGraph :=
  { g with edges := g.edges.filter (fun p => !(decide (p.1 = (s, d, k)))) }

/-- The ANM store: `anm.overlay_nx_graphs`, a mapping from overlay id to the
overlay's NetworkX graph. -/
structure Anm where
  overlay_nx_graphs : List (String × NxGraph)
deriving DecidableEq, Repr

/-- `anm.overlay_nx_graphs[oid]` as an optional lookup. -/
def Anm.getGraph (st : Anm) (oid : String) : Option NxGraph :=
  (st.overlay_nx_graphs.find? (fun p => p.1 = oid)).map (·.2)

/-- Replace overlay `oid`'s graph (in Python the graph object is mutated in
place, so the store's mapping is unchanged apart from that overlay). -/
def Anm.setGraph (st : Anm) (oid : String) (g : NxGraph) : Anm :=
  ⟨st.overlay_nx_graphs.map (fun p => if p.1 = oid then (oid, g) else p)⟩

/-- Modelled from the spec: `autonetkit/anm/node.py` is not under `src/`; per
the collaborator contract a Node Handle is constructed from
`(store, overlay_id, node_id)` and exposes a comparable `node_id`. -/
structure NmNode where
  overlay_id : String
  node_id : String
deriving DecidableEq, Repr

/-- Modelled from the spec: `autonetkit/anm/interface.py` is not under `src/`;
per the collaborator contract an Interface Handle (`NmPort`) is constructed
from `(store, overlay_id, node_id, interface_id)` and treated as opaque. -/
structure NmPort where
  overlay_id : String
  node_id : String
  interface_id : String
deriving DecidableEq, Repr

/-- The edge handle `NmEdge(anm, overlay_id, src_id, dst_id, ekey=0)`.
The `anm` store reference is passed explicitly to each operation instead of
being stored in the handle. -/
structure NmEdge where
  overlay_id : String
  src_id : String
  dst_id : String
  ekey : Nat
deriving DecidableEq, Repr

/-- `self._graph`: `self.anm.overlay_nx_graphs[self.overlay_id]`, raising
`KeyError` when the overlay id is absent. -/
def NmEdge.graphOf (e : NmEdge) (st : Anm) : Except PyErr NxGraph :=
  match st.getGraph e.overlay_id with
  | some g => .ok g
  | none => .error .keyError

/-- `self.is_multigraph()`: `self._graph.is_multigraph()`. -/
def NmEdge.is_multigraph (e : NmEdge) (st : Anm) : Except PyErr Bool :=
  (e.graphOf st).map (·.multigraph)

/-- `self.src`: `NmNode(self.anm, self.overlay_id, self.src_id)`. -/
def NmEdge.src (e : NmEdge) : NmNode := ⟨e.overlay_id, e.src_id⟩

/-- `self.dst`: `NmNode(self.anm, self.overlay_id, self.dst_id)`. -/
def NmEdge.dst (e : NmEdge) : NmNode := ⟨e.overlay_id, e.dst_id⟩

/-- `self._data`: `self._graph[src][dst][ekey]` on a multigraph, else
`self._graph[src][dst]`; any missing level raises `KeyError`. -/
def NmEdge.dataOf (e : NmEdge) (st : Anm) : Except PyErr AttrRecord := do
  let g ← e.graphOf st
  if g.multigraph then
    match g.edgeDataKey e.src_id e.dst_id e.ekey with
    | some r => pure r
    | none => throw .keyError
  else
    match g.edgeData e.src_id e.dst_id with
    | some r => pure r
    | none => throw .keyError

/-- `self._data[key] = val`: locate the edge's record and mutate it; the
mutation is modelled by rebuilding the store with the updated record. -/
def Anm.dataSet (st : Anm) (e : NmEdge) (key : String) (v : Val) :
    Except PyErr Anm := do
  let g ← e.graphOf st
  if g.multigraph then
    match g.edgeDataKey e.src_id e.dst_id e.ekey with
    | some r =>
      pure (st.setGraph e.overlay_id
        (g.setEdgeDataKey e.src_id e.dst_id e.ekey (recSet r key v)))
    | none => throw .keyError
  else
    match g.edgeData e.src_id e.dst_id with
    | some r =>
      pure (st.setGraph e.overlay_id
        (g.setEdgeData e.src_id e.dst_id (recSet r key v)))
    | none => throw .keyError

/-- `self.__nonzero__()` (the Python-2 truth value of the handle):
`has_edge(src, dst, key=ekey)` on a multigraph, else `has_edge(src, dst)`. -/
def NmEdge.nonzero (e : NmEdge) (st : Anm) : Except PyErr Bool := do
  let m ← e.is_multigraph st
  if m then
    let g ← e.graphOf st
    pure (g.has_edge_key e.src_id e.dst_id e.ekey)
  else
    let g ← e.graphOf st
    pure (g.has_edge e.src_id e.dst_id)

/-- `self.is_parallel()`: more than one edge joins src and dst. -/
def NmEdge.is_parallel (e : NmEdge) (st : Anm) : Except PyErr Bool := do
  let g ← e.graphOf st
  pure (decide (g.number_of_edges e.src_id e.dst_id > 1))

/-- `self.__key()`: `(self.src_id, self.dst_id)` — deliberately excludes the
overlay id (and the ekey) to allow fast cross-layer comparison. -/
def NmEdge.keyPair (e : NmEdge) : String × String := (e.src_id, e.dst_id)

/-- `self.__hash__()`: `hash(self.__key())`. -/
def NmEdge.pyHash (e : NmEdge) : UInt64 := hash e.keyPair

/-- The right-hand operand of an equality comparison in `__eq__`: another
edge handle, a raw Python tuple of values, or an atomic non-sequence value
(one with neither edge attributes nor a length). -/
inductive EqOperand where
  | edge (e : NmEdge)
  | tup (xs : List Val)
  | atom (v : Val)
deriving DecidableEq, Repr

/-- `self.__eq__(other)`.  Case analysis follows the source: a multigraph
handle first probes `other.is_multigraph()`; on `AttributeError` it compares
against `other` as a raw pair or triple; a raw sequence whose length is
neither 2 nor 3, and every comparison by a simple-graph handle, falls
through to the final pair comparison, where a Python tuple compared against
a non-tuple (or a tuple of another length) is `False` without error, while
`len(other)` on a non-sequence raises `TypeError`. -/
def NmEdge.pyEq (e : NmEdge) (st : Anm) (other : EqOperand) :
    Except PyErr Bool := do
  let selfMulti ← e.is_multigraph st
  if selfMulti then
    match other with
    | .edge o => do
      let otherMulti ← o.is_multigraph st
      if otherMulti then
        pure (decide ((e.src_id, e.dst_id, e.ekey) = (o.src_id, o.dst_id, o.ekey)))
      else
        pure (decide ((e.src_id, e.dst_id) = (o.src_id, o.dst_id)))
    | .tup xs =>
      if xs.length = 2 then
        pure (decide ([Val.vstr e.src_id, Val.vstr e.dst_id] = xs))
      else if xs.length = 3 then
        pure (decide ([Val.vstr e.src_id, Val.vstr e.dst_id,
                       Val.vint (Int.ofNat e.ekey)] = xs))
      else
        pure (decide ([Val.vstr e.src_id, Val.vstr e.dst_id] = xs))
    | .atom _ => throw .typeError
  else
    match other with
    | .edge o => pure (decide ((e.src_id, e.dst_id) = (o.src_id, o.dst_id)))
    | .tup xs => pure (decide ([Val.vstr e.src_id, Val.vstr e.dst_id] = xs))
    | .atom _ => pure false

/-- Lexicographic order on pairs, as Python compares 2-tuples. -/
def lexLt2 {α β : Type} [LT α] [LT β] (a b : α × β) : Prop :=
  a.1 < b.1 ∨ (a.1 = b.1 ∧ a.2 < b.2)

instance {α β : Type} [LT α] [LT β] [DecidableEq α]
    [h1 : (x y : α) → Decidable (x < y)] [h2 : (x y : β) → Decidable (x < y)]
    (a b : α × β) : Decidable (lexLt2 a b) := by
  unfold lexLt2; infer_instance

/-- Lexicographic order on triples, as Python compares 3-tuples. -/
def lexLt3 {α β γ : Type} [LT α] [LT β] [LT γ] (a b : α × β × γ) : Prop :=
  a.1 < b.1 ∨ (a.1 = b.1 ∧ lexLt2 a.2 b.2)

instance {α β γ : Type} [LT α] [LT β] [LT γ] [DecidableEq α] [DecidableEq β]
    [h1 : (x y : α) → Decidable (x < y)] [h2 : (x y : β) → Decidable (x < y)]
    [h3 : (x y : γ) → Decidable (x < y)]
    (a b : α × β × γ) : Decidable (lexLt3 a b) := by
  unfold lexLt3; infer_instance

/-- `self.__lt__(other)`: when both sides are multigraph edges compare
`(src.node_id, dst.node_id, ekey)`, otherwise `(src.node_id, dst.node_id)`;
`and` short-circuits, so `other.is_multigraph()` is consulted only when
`self` is a multigraph edge. -/
def NmEdge.pyLt (e o : NmEdge) (st : Anm) : Except PyErr Bool := do
  let selfMulti ← e.is_multigraph st
  let bothMulti ← if selfMulti then o.is_multigraph st else pure false
  if bothMulti then
    pure (decide (lexLt3 (e.src.node_id, e.dst.node_id, e.ekey)
                         (o.src.node_id, o.dst.node_id, o.ekey)))
  else
    pure (decide (lexLt2 (e.src.node_id, e.dst.node_id)
                         (o.src.node_id, o.dst.node_id)))

/-- Python objects an attribute access on the handle can produce. -/
inductive PyObj where
  | val (v : Val)
  | store
  | logger
  | method (name : String)
  | node (n : NmNode)
  | port (p : NmPort)
  | graphObj (g : NxGraph)
  | record (d : AttrRecord)
deriving DecidableEq, Repr

/-- `self.get('_ports')` specialised: `_ports` names no attribute of the
handle object, so the lookup always reaches the attribute record, with
`dict.get` returning `None` when the key is unset. -/
def NmEdge.getPorts (e : NmEdge) (st : Anm) : Except PyErr Val := do
  let d ← e.dataOf st
  pure ((recGet d "_ports").getD .vnone)

/-- `self.src_int`: `self.get('_ports')[self.src_id]` wrapped into
`NmPort(anm, overlay_id, src_id, interface_id)`; indexing a missing node id
raises `KeyError`, indexing a non-dict (e.g. `None`) raises `TypeError`. -/
def NmEdge.src_int (e : NmEdge) (st : Anm) : Except PyErr NmPort := do
  let pv ← e.getPorts st
  match pv with
  | .vdict ps =>
    match dictGet ps e.src_id with
    | some i => pure ⟨e.overlay_id, e.src_id, i⟩
    | none => throw .keyError
  | _ => throw .typeError

/-- `self.dst_int`: `self.get('_ports')[self.dst_id]` wrapped into
`NmPort(anm, overlay_id, dst_id, interface_id)`. -/
def NmEdge.dst_int (e : NmEdge) (st : Anm) : Except PyErr NmPort := do
  let pv ← e.getPorts st
  match pv with
  | .vdict ps =>
    match dictGet ps e.dst_id with
    | some i => pure ⟨e.overlay_id, e.dst_id, i⟩
    | none => throw .keyError
  | _ => throw .typeError

/-- Names of the plain methods available on the handle object. -/
def ownMethodNames : List String :=
  ["is_multigraph", "is_parallel", "apply_to_interfaces", "bind_interface",
   "interfaces", "dump", "get", "set", "init_logging", "_overlay"]

/-- `getattr(self, key)` restricted to the handle's own attributes:
`none` when the object has no such attribute (Python raises
`AttributeError`), otherwise the outcome of evaluating the attribute —
fields and methods always succeed, property getters may raise. -/
def NmEdge.getattrOwn (e : NmEdge) (st : Anm) (key : String) :
    Option (Except PyErr PyObj) :=
  if key = "anm" then some (.ok .store)
  else if key = "overlay_id" then some (.ok (.val (.vstr e.overlay_id)))
  else if key = "src_id" then some (.ok (.val (.vstr e.src_id)))
  else if key = "dst_id" then some (.ok (.val (.vstr e.dst_id)))
  else if key = "ekey" then some (.ok (.val (.vint (Int.ofNat e.ekey))))
  else if key = "log" then some (.ok .logger)
  else if key ∈ ownMethodNames then some (.ok (.method key))
  else if key = "src" then some (.ok (.node e.src))
  else if key = "dst" then some (.ok (.node e.dst))
  else if key = "raw_interfaces" then some ((e.getPorts st).map .val)
  else if key = "_graph" then some ((e.graphOf st).map .graphObj)
  else if key = "_data" then some ((e.dataOf st).map .record)
  else if key = "src_int" then some ((e.src_int st).map .port)
  else if key = "dst_int" then some ((e.dst_int st).map .port)
  else none

/-- Every name that `getattrOwn` recognises as an attribute of the handle. -/
def ownAttrNames : List String :=
  ["anm", "overlay_id", "src_id", "dst_id", "ekey", "log", "src", "dst",
   "raw_interfaces", "_graph", "_data", "src_int", "dst_int"] ++ ownMethodNames

/-- Whether `key` names an attribute of the handle object itself. -/
def isOwnAttrName (key : String) : Bool := decide (key ∈ ownAttrNames)

/-- Python-2 `hasattr(self, key)`: true iff the attribute exists and its
getter does not raise (Python 2's `hasattr` swallows every exception). -/
def NmEdge.hasattrB (e : NmEdge) (st : Anm) (key : String) : Bool :=
  match e.getattrOwn st key with
  | some (.ok _) => true
  | _ => false

/-- `self.get(key)`: if `hasattr(self, key)` return `getattr(self, key)`,
else `self._data.get(key)` (with `None` as the absent-value marker). -/
def NmEdge.get (e : NmEdge) (st : Anm) (key : String) : Except PyErr PyObj :=
  if e.hasattrB st key then
    match e.getattrOwn st key with
    | some r => r
    | none => .error .attributeError
  else do
    let d ← e.dataOf st
    pure (.val ((recGet d key).getD .vnone))

/-- `self.set(key, val)`: when `key == 'raw_interfaces'` first run the
`raw_interfaces` property setter (`self.set('_ports', val)`), then — the
source has no `else` or `return` — fall through to `self._data[key] = val`
unconditionally. -/
def NmEdge.set (e : NmEdge) (st : Anm) (key : String) (v : Val) :
    Except PyErr Anm := do
  let st1 ← if key = "raw_interfaces" then st.dataSet e "_ports" v else pure st
  st1.dataSet e key v

/-- Modelled from the spec: `bind_interface(node, interface)` assigns
`self._ports[node.id] = interface`, where the `_ports` attribute resolves
through `AnkElement` (`autonetkit/anm/ank_element.py`), a file not under
`src/`.  Per the spec, `_ports` is the port-binding mapping stored under the
`_ports` key of the edge's attribute record, and the assignment records or
overwrites the binding for `node`'s id in that mapping. -/
def NmEdge.bind_interface (e : NmEdge) (st : Anm) (n : NmNode) (intf : String) :
    Except PyErr Anm := do
  let d ← e.dataOf st
  match recGet d "_ports" with
  | some (.vdict ps) => st.dataSet e "_ports" (.vdict (dictSet ps n.node_id intf))
  | _ => throw .typeError

/-- `self.interfaces()`: one `NmPort` per binding of `self.get('_ports')`,
in insertion order of the binding map. -/
def NmEdge.interfaces (e : NmEdge) (st : Anm) : Except PyErr (List NmPort) := do
  let pv ← e.getPorts st
  match pv with
  | .vdict ps => pure (ps.map (fun p => ⟨e.overlay_id, p.1, p.2⟩))
  | _ => throw .typeError


/-! Helper lemmas about dictionary update and lookup. -/

lemma find_map_replace_self {α : Type} (m : List (String × α)) (k : String) (v : α)
    (h : m.any (fun p => p.1 = k) = true) :
    ((m.map (fun p => if p.1 = k then (k, v) else p)).find?
        (fun p => p.1 = k)).map (·.2) = some v := by
  induction m with
  | nil => simp at h
  | cons x xs ih =>
    by_cases hx : x.1 = k
    · simp [hx]
    · simp only [List.any_cons, hx, decide_False, Bool.false_or] at h
      simpa [hx] using ih h

lemma find_map_replace_ne {α : Type} (m : List (String × α)) (k k2 : String) (v : α)
    (hne : k2 ≠ k) :
    (m.map (fun p => if p.1 = k then (k, v) else p)).find? (fun p => p.1 = k2)
      = m.find? (fun p => p.1 = k2) := by
  induction m with
  | nil => simp
  | cons x xs ih =>
    by_cases hx : x.1 = k
    · have hx2 : ¬(x.1 = k2) := fun hc => hne (hc ▸ hx ▸ rfl)
      simp [hx, Ne.symm hne, hx2, ih]
    · by_cases hx2 : x.1 = k2 <;> simp [hx, hx2, hne, ih]

lemma find_append_single_self {α : Type} (m : List (String × α)) (k : String) (v : α)
    (h : ¬(m.any (fun p => p.1 = k) = true)) :
    (((m ++ [(k, v)]).find? (fun p => p.1 = k)).map (·.2)) = some v := by
  have hnone : m.find? (fun p => decide (p.1 = k)) = none := by
    rw [List.find?_eq_none]
    intro x hx
    simp only [List.any_eq_true, not_exists, not_and] at h
    simpa using h x hx
  simp [List.find?_append, hnone]

lemma find_append_single_ne {α : Type} (m : List (String × α)) (k k2 : String) (v : α)
    (hne : k2 ≠ k) :
    ((m ++ [(k, v)]).find? (fun p => p.1 = k2)) = m.find? (fun p => p.1 = k2) := by
  simp only [List.find?_append, List.find?_singleton]
  have : ¬((k, v).1 = k2) := fun hc => hne hc.symm
  simp [this]

lemma recGet_recSet_self (r : AttrRecord) (k : String) (v : Val) :
    recGet (recSet r k v) k = some v := by
  unfold recGet recSet
  by_cases h : r.any (fun p => p.1 = k) = true
  · simpa [h] using find_map_replace_self r k v h
  · simpa [h] using find_append_single_self r k v h

lemma recGet_recSet_ne (r : AttrRecord) (k k2 : String) (v : Val) (hne : k2 ≠ k) :
    recGet (recSet r k v) k2 = recGet r k2 := by
  unfold recGet recSet
  by_cases h : r.any (fun p => p.1 = k) = true
  · simp [h, find_map_replace_ne r k k2 v hne]
  · simp [h, find_append_single_ne r k k2 v hne]

lemma dictGet_dictSet_self (m : List (String × String)) (k v : String) :
    dictGet (dictSet m k v) k = some v := by
  unfold dictGet dictSet
  by_cases h : m.any (fun p => p.1 = k) = true
  · simpa [h] using find_map_replace_self m k v h
  · simpa [h] using find_append_single_self m k v h

lemma any_of_find?_some {α : Type} {p : α → Bool} {l : List α} {x : α}
    (h : l.find? p = some x) : l.any p = true :=
  List.any_eq_true.mpr ⟨x, List.mem_of_find?_eq_some h, List.find?_some h⟩

lemma getGraph_setGraph {st : Anm} {oid : String} {g0 : NxGraph} (g : NxGraph)
    (h : st.getGraph oid = some g0) :
    (st.setGraph oid g).getGraph oid = some g := by
  unfold Anm.getGraph at h ⊢
  unfold Anm.setGraph
  cases hf : st.overlay_nx_graphs.find? (fun p => p.1 = oid) with
  | none => rw [hf] at h; simp at h
  | some pr => exact find_map_replace_self _ oid g (any_of_find?_some hf)

lemma multigraph_setEdgeData (g : NxGraph) (s d : String) (r : AttrRecord) :
    (g.setEdgeData s d r).multigraph = g.multigraph := rfl

lemma multigraph_setEdgeDataKey (g : NxGraph) (s d : String) (k : Nat)
    (r : AttrRecord) :
    (g.setEdgeDataKey s d k r).multigraph = g.multigraph := rfl

lemma find_setEdgeList_self {s d : String} (r : AttrRecord)
    {l : List (EdgeKey × AttrRecord)} {pr : EdgeKey × AttrRecord}
    (h : l.find? (fun p => p.1.1 = s ∧ p.1.2.1 = d) = some pr) :
    ((setEdgeList s d r l).find? (fun p => p.1.1 = s ∧ p.1.2.1 = d)).map (·.2)
      = some r := by
  induction l with
  | nil => simp at h
  | cons x xs ih =>
    by_cases hx : x.1.1 = s ∧ x.1.2.1 = d
    · simp [setEdgeList, hx]
    · rw [List.find?_cons_of_neg _ (by simpa using hx)] at h
      simpa [setEdgeList, hx] using ih h

lemma find_setEdgeListKey_self {s d : String} {k : Nat} (r : AttrRecord)
    {l : List (EdgeKey × AttrRecord)} {pr : EdgeKey × AttrRecord}
    (h : l.find? (fun p => p.1 = (s, d, k)) = some pr) :
    ((setEdgeListKey s d k r l).find? (fun p => p.1 = (s, d, k))).map (·.2)
      = some r := by
  induction l with
  | nil => simp at h
  | cons x xs ih =>
    by_cases hx : x.1 = (s, d, k)
    · simp [setEdgeListKey, hx]
    · rw [List.find?_cons_of_neg _ (by simpa using hx)] at h
      simpa [setEdgeListKey, hx] using ih h

lemma edgeData_setEdgeData {g : NxGraph} {s d : String} {r0 : AttrRecord}
    (r : AttrRecord) (h : g.edgeData s d = some r0) :
    (g.setEdgeData s d r).edgeData s d = some r := by
  unfold NxGraph.edgeData at h ⊢
  unfold NxGraph.setEdgeData
  cases hf : g.edges.find? (fun p => p.1.1 = s ∧ p.1.2.1 = d) with
  | none => rw [hf] at h; simp at h
  | some pr => exact find_setEdgeList_self r hf

lemma edgeDataKey_setEdgeDataKey {g : NxGraph} {s d : String} {k : Nat}
    {r0 : AttrRecord} (r : AttrRecord) (h : g.edgeDataKey s d k = some r0) :
    (g.setEdgeDataKey s d k r).edgeDataKey s d k = some r := by
  unfold NxGraph.edgeDataKey at h ⊢
  unfold NxGraph.setEdgeDataKey
  cases hf : g.edges.find? (fun p => p.1 = (s, d, k)) with
  | none => rw [hf] at h; simp at h
  | some pr => exact find_setEdgeListKey_self r hf

/-! Reduction lemmas for the `Except` monad operations. -/

lemma exc_bind_ok {ε α β : Type} (a : α) (f : α → Except ε β) :
    (Except.ok a >>= f) = f a := rfl

lemma exc_bind_error {ε α β : Type} (err : ε) (f : α → Except ε β) :
    ((Except.error err : Except ε α) >>= f) = Except.error err := rfl

lemma exc_map_ok {ε α β : Type} (f : α → β) (a : α) :
    (Except.ok a : Except ε α).map f = Except.ok (f a) := rfl

lemma exc_map_error {ε α β : Type} (f : α → β) (err : ε) :
    (Except.error err : Except ε α).map f = (Except.error err : Except ε β) := rfl

lemma exc_pure {ε α : Type} (a : α) : (pure a : Except ε α) = Except.ok a := rfl

lemma is_multigraph_of_getGraph {e : NmEdge} {st : Anm} {g : NxGraph}
    (h : st.getGraph e.overlay_id = some g) :
    e.is_multigraph st = .ok g.multigraph := by
  simp [NmEdge.is_multigraph, NmEdge.graphOf, h, exc_map_ok]

/-- When `self._data[key] = val` succeeds, the edge's record existed before
the write, and afterwards it reads back with `key` freshly bound to `val`. -/
lemma dataSet_ok_dataOf {st st2 : Anm} {e : NmEdge} {k : String} {v : Val}
    (h : st.dataSet e k v = .ok st2) :
    ∃ r, e.dataOf st = .ok r ∧ e.dataOf st2 = .ok (recSet r k v) := by
  unfold Anm.dataSet at h
  cases hg : st.getGraph e.overlay_id with
  | none => simp [NmEdge.graphOf, hg, exc_bind_error] at h
  | some g =>
    simp only [NmEdge.graphOf, hg, exc_bind_ok] at h
    by_cases hm : g.multigraph = true
    · rw [if_pos hm] at h
      cases hd : g.edgeDataKey e.src_id e.dst_id e.ekey with
      | none => rw [hd] at h; simp [throw, throwThe, MonadExceptOf.throw] at h
      | some r =>
        rw [hd] at h
        simp only [exc_pure, Except.ok.injEq] at h
        refine ⟨r, ?_, ?_⟩
        · simp [NmEdge.dataOf, NmEdge.graphOf, hg, exc_bind_ok, exc_pure, hm, hd]
        · have hg2 := getGraph_setGraph
            (g.setEdgeDataKey e.src_id e.dst_id e.ekey (recSet r k v)) hg
          rw [← h]
          simp [NmEdge.dataOf, NmEdge.graphOf, hg2, exc_bind_ok, exc_pure,
            multigraph_setEdgeDataKey, hm, edgeDataKey_setEdgeDataKey (recSet r k v) hd]
    · rw [if_neg hm] at h
      cases hd : g.edgeData e.src_id e.dst_id with
      | none => rw [hd] at h; simp [throw, throwThe, MonadExceptOf.throw] at h
      | some r =>
        rw [hd] at h
        simp only [exc_pure, Except.ok.injEq] at h
        refine ⟨r, ?_, ?_⟩
        · simp [NmEdge.dataOf, NmEdge.graphOf, hg, exc_bind_ok, exc_pure, hm, hd]
        · have hg2 := getGraph_setGraph
            (g.setEdgeData e.src_id e.dst_id (recSet r k v)) hg
          rw [← h]
          simp [NmEdge.dataOf, NmEdge.graphOf, hg2, exc_bind_ok, exc_pure,
            multigraph_setEdgeData, hm, edgeData_setEdgeData (recSet r k v) hd]

lemma getattrOwn_none (e : NmEdge) (st : Anm) (k : String)
    (h : isOwnAttrName k = false) : e.getattrOwn st k = none := by
  simp only [isOwnAttrName, ownAttrNames, ownMethodNames, decide_eq_false_iff_not,
    List.mem_append, List.mem_cons, List.not_mem_nil, or_false, not_or] at h
  obtain ⟨⟨h1, h2, h3, h4, h5, h6, h7, h8, h9, h10, h11, h12, h13⟩,
    hm1, hm2, hm3, hm4, hm5, hm6, hm7, hm8, hm9, hm10⟩ := h
  simp [NmEdge.getattrOwn, ownMethodNames, h1, h2, h3, h4, h5, h6, h7, h8, h9,
    h10, h11, h12, h13, hm1, hm2, hm3, hm4, hm5, hm6, hm7, hm8, hm9, hm10]

lemma get_of_not_own {e : NmEdge} {st : Anm} {k : String}
    (h : isOwnAttrName k = false) :
    e.get st k = (e.dataOf st >>= fun d => pure (.val ((recGet d k).getD .vnone))) := by
  simp [NmEdge.get, NmEdge.hasattrB, getattrOwn_none e st k h]

/-- C1: equality between edge handles compares `(src_id, dst_id)`, with
`ekey` additionally required exactly when both handles are multigraph
edges; the result depends only on these ids and the two multigraph flags,
never on `overlay_id` — for two handles of the same overlay the flags
coincide, giving the claimed iff. -/
theorem nmEdge_eq_ids_only (e1 e2 : NmEdge) (st : Anm) (m1 m2 : Bool)
    (h1 : e1.is_multigraph st = .ok m1) (h2 : e2.is_multigraph st = .ok m2) :
    e1.pyEq st (.edge e2) =
      .ok (decide (e1.src_id = e2.src_id ∧ e1.dst_id = e2.dst_id ∧
        (m1 = true → m2 = true → e1.ekey = e2.ekey))) := by
  cases m1 <;> cases m2 <;>
    simp [NmEdge.pyEq, h1, h2, exc_bind_ok, exc_pure, decide_eq_decide]

/-- Witness state: overlay `phy` is a simple graph holding edge (A, B);
overlay `phy2` is a multigraph holding parallel edges (A, B, 0), (A, B, 1). -/
def stW : Anm :=
  ⟨[("phy", ⟨false, [(("A", "B", 0), [])]⟩),
    ("phy2", ⟨true, [(("A", "B", 0), []), (("A", "B", 1), [])]⟩)]⟩

/-- Witness for C1 at a concrete state: two parallel multigraph edges with
distinct keys compare unequal. -/
theorem nmEdge_eq_ids_only_witness :
    NmEdge.pyEq ⟨"phy2", "A", "B", 0⟩ stW (.edge ⟨"phy2", "A", "B", 1⟩)
      = .ok false := by
  have h := nmEdge_eq_ids_only ⟨"phy2", "A", "B", 0⟩ ⟨"phy2", "A", "B", 1⟩ stW
    true true rfl rfl
  rw [h]; rfl

/-- C2: the hash is a function of `(src_id, dst_id)` only, so two handles
with matching endpoints hash alike regardless of their `ekey` values and
overlay ids; in particular two distinct parallel multigraph edges compare
unequal yet hash identically. -/
theorem nmEdge_hash_ignores_ekey (e1 e2 : NmEdge) (st : Anm)
    (hs : e1.src_id = e2.src_id) (hd : e1.dst_id = e2.dst_id) :
    e1.pyHash = e2.pyHash ∧
      (e1.is_multigraph st = .ok true → e2.is_multigraph st = .ok true →
        e1.ekey ≠ e2.ekey → e1.pyEq st (.edge e2) = .ok false) := by
  constructor
  · unfold NmEdge.pyHash NmEdge.keyPair
    rw [hs, hd]
  · intro hm1 hm2 hk
    simp [NmEdge.pyEq, hm1, hm2, exc_bind_ok, exc_pure, hk]

/-- Witness for C2: the two parallel edges (A, B, 0) and (A, B, 1) of the
multigraph overlay hash identically while comparing unequal. -/
theorem nmEdge_hash_ignores_ekey_witness :
    NmEdge.pyHash ⟨"phy2", "A", "B", 0⟩ = NmEdge.pyHash ⟨"phy2", "A", "B", 1⟩ ∧
    NmEdge.pyEq ⟨"phy2", "A", "B", 0⟩ stW (.edge ⟨"phy2", "A", "B", 1⟩)
      = .ok false := by
  have h := nmEdge_hash_ignores_ekey ⟨"phy2", "A", "B", 0⟩ ⟨"phy2", "A", "B", 1⟩
    stW rfl rfl
  exact ⟨h.1, h.2 rfl rfl (by decide)⟩

section LexLemmas
variable {α β γ : Type} [LinearOrder α] [LinearOrder β] [LinearOrder γ]

lemma lexLt2_trans {a b c : α × β} (h1 : lexLt2 a b) (h2 : lexLt2 b c) :
    lexLt2 a c := by
  rcases h1 with h | ⟨he, h⟩ <;> rcases h2 with g | ⟨ge, g⟩
  · exact Or.inl (lt_trans h g)
  · exact Or.inl (lt_of_lt_of_eq h ge)
  · exact Or.inl (lt_of_eq_of_lt he g)
  · exact Or.inr ⟨he.trans ge, lt_trans h g⟩

lemma lexLt2_irrefl (a : α × β) : ¬ lexLt2 a a := by
  rintro (h | ⟨-, h⟩) <;> exact lt_irrefl _ h

lemma lexLt2_trichotomy (a b : α × β) :
    lexLt2 a b ∨ a = b ∨ lexLt2 b a := by
  rcases lt_trichotomy a.1 b.1 with h | h | h
  · exact Or.inl (Or.inl h)
  · rcases lt_trichotomy a.2 b.2 with h2 | h2 | h2
    · exact Or.inl (Or.inr ⟨h, h2⟩)
    · exact Or.inr (Or.inl (Prod.ext h h2))
    · exact Or.inr (Or.inr (Or.inr ⟨h.symm, h2⟩))
  · exact Or.inr (Or.inr (Or.inl h))

lemma lexLt3_trans {a b c : α × β × γ}
    (h1 : lexLt3 a b) (h2 : lexLt3 b c) : lexLt3 a c := by
  rcases h1 with h | ⟨he, h⟩ <;> rcases h2 with g | ⟨ge, g⟩
  · exact Or.inl (lt_trans h g)
  · exact Or.inl (lt_of_lt_of_eq h ge)
  · exact Or.inl (lt_of_eq_of_lt he g)
  · exact Or.inr ⟨he.trans ge, lexLt2_trans h g⟩

lemma lexLt3_irrefl (a : α × β × γ) : ¬ lexLt3 a a := by
  rintro (h | ⟨-, h⟩)
  · exact lt_irrefl _ h
  · exact lexLt2_irrefl _ h

lemma lexLt3_trichotomy (a b : α × β × γ) :
    lexLt3 a b ∨ a = b ∨ lexLt3 b a := by
  rcases lt_trichotomy a.1 b.1 with h | h | h
  · exact Or.inl (Or.inl h)
  · rcases lexLt2_trichotomy a.2 b.2 with h2 | h2 | h2
    · exact Or.inl (Or.inr ⟨h, h2⟩)
    · exact Or.inr (Or.inl (Prod.ext h h2))
    · exact Or.inr (Or.inr (Or.inr ⟨h.symm, h2⟩))
  · exact Or.inr (Or.inr (Or.inl h))

end LexLemmas

/-- C6: on edge handles of the same kind the ordering is a strict total
order consistent with node-id ordering — transitive, irreflexive, and any
two handles that compare below in neither direction are equal in the
handle's own equality; the comparison is lexicographic on
`(src.node_id, dst.node_id, ekey)` when both sides are multigraph edges and
on `(src.node_id, dst.node_id)` otherwise. -/
theorem nmEdge_lt_strict_total (a b c : NmEdge) (st : Anm) (m : Bool)
    (ha : a.is_multigraph st = .ok m) (hb : b.is_multigraph st = .ok m)
    (hc : c.is_multigraph st = .ok m) :
    (a.pyLt b st = .ok true → b.pyLt c st = .ok true → a.pyLt c st = .ok true) ∧
    a.pyLt a st = .ok false ∧
    (a.pyLt b st = .ok false → b.pyLt a st = .ok false →
      a.pyEq st (.edge b) = .ok true) ∧
    a.pyLt b st = .ok (if m then
        decide (lexLt3 (a.src_id, a.dst_id, a.ekey) (b.src_id, b.dst_id, b.ekey))
      else decide (lexLt2 (a.src_id, a.dst_id) (b.src_id, b.dst_id))) := by
  cases m with
  | true =>
    simp only [NmEdge.pyLt, ha, hb, hc, exc_bind_ok, exc_pure, if_true,
      NmEdge.src, NmEdge.dst, Except.ok.injEq, decide_eq_true_eq,
      decide_eq_false_iff_not, if_pos]
    refine ⟨fun h1 h2 => lexLt3_trans h1 h2, lexLt3_irrefl _, fun h1 h2 => ?_, trivial⟩
    rcases lexLt3_trichotomy (a.src_id, a.dst_id, a.ekey)
        (b.src_id, b.dst_id, b.ekey) with h | h | h
    · exact absurd h h1
    · simp only [Prod.mk.injEq] at h
      simp [NmEdge.pyEq, ha, hb, exc_bind_ok, exc_pure, h.1, h.2.1, h.2.2]
    · exact absurd h h2
  | false =>
    simp only [NmEdge.pyLt, ha, hb, hc, exc_bind_ok, exc_pure,
      NmEdge.src, NmEdge.dst, Except.ok.injEq, decide_eq_true_eq,
      decide_eq_false_iff_not, Bool.false_eq_true, if_false]
    refine ⟨fun h1 h2 => lexLt2_trans h1 h2, lexLt2_irrefl _, fun h1 h2 => ?_, trivial⟩
    rcases lexLt2_trichotomy (a.src_id, a.dst_id) (b.src_id, b.dst_id) with h | h | h
    · exact absurd h h1
    · simp only [Prod.mk.injEq] at h
      simp [NmEdge.pyEq, ha, hb, exc_bind_ok, exc_pure, h.1, h.2]
    · exact absurd h h2

/-- Witness for C6 at the concrete multigraph overlay: parallel edge
(A, B, 0) orders strictly below (A, B, 1) by the ekey tiebreak. -/
theorem nmEdge_lt_strict_total_witness :
    NmEdge.pyLt ⟨"phy2", "A", "B", 0⟩ ⟨"phy2", "A", "B", 1⟩ stW = .ok true := by
  have h := nmEdge_lt_strict_total ⟨"phy2", "A", "B", 0⟩ ⟨"phy2", "A", "B", 1⟩
    ⟨"phy2", "A", "B", 1⟩ stW true rfl rfl rfl
  rw [h.2.2.2]
  show Except.ok (decide (lexLt3 (("A" : String), ("B" : String), (0 : Nat))
    ("A", "B", 1))) = Except.ok true
  exact congrArg Except.ok
    (decide_eq_true (Or.inr ⟨rfl, Or.inr ⟨rfl, Nat.zero_lt_one⟩⟩))

lemma any_filter_not_pred {α : Type} (l : List α) (p : α → Bool) :
    (l.filter (fun a => !(p a))).any p = false := by
  induction l with
  | nil => rfl
  | cons x xs ih =>
    by_cases h : p x = true
    · simp [List.filter_cons, h, ih]
    · simp only [Bool.not_eq_true] at h
      simp [List.filter_cons, h, ih]

lemma multigraph_removeEdge (g : NxGraph) (s d : String) :
    (g.removeEdge s d).multigraph = g.multigraph := rfl

lemma multigraph_removeEdgeKey (g : NxGraph) (s d : String) (k : Nat) :
    (g.removeEdgeKey s d k).multigraph = g.multigraph := rfl

lemma has_edge_removeEdge (g : NxGraph) (s d : String) :
    (g.removeEdge s d).has_edge s d = false :=
  any_filter_not_pred _ _

lemma has_edge_key_removeEdgeKey (g : NxGraph) (s d : String) (k : Nat) :
    (g.removeEdgeKey s d k).has_edge_key s d k = false :=
  any_filter_not_pred _ _

/-- C5: the truth value of an edge handle equals the owning container's
`has_edge` report for `(src_id, dst_id)`, with `ekey` additionally passed
exactly when the overlay is a multigraph; after the edge is removed from
the container, the same handle evaluates as false. -/
theorem nmEdge_nonzero_iff_has_edge (e : NmEdge) (st : Anm) (g : NxGraph)
    (hg : st.getGraph e.overlay_id = some g) :
    e.nonzero st = .ok (if g.multigraph then
        g.has_edge_key e.src_id e.dst_id e.ekey
      else g.has_edge e.src_id e.dst_id) ∧
    e.nonzero (st.setGraph e.overlay_id (if g.multigraph then
        g.removeEdgeKey e.src_id e.dst_id e.ekey
      else g.removeEdge e.src_id e.dst_id)) = .ok false := by
  constructor
  · by_cases hm : g.multigraph = true <;>
      simp [NmEdge.nonzero, NmEdge.is_multigraph, NmEdge.graphOf, hg,
        exc_map_ok, exc_bind_ok, exc_pure, hm]
  · by_cases hm : g.multigraph = true
    · rw [if_pos hm]
      have hg2 := getGraph_setGraph (g.removeEdgeKey e.src_id e.dst_id e.ekey) hg
      simp [NmEdge.nonzero, NmEdge.is_multigraph, NmEdge.graphOf, hg2,
        exc_map_ok, exc_bind_ok, exc_pure, multigraph_removeEdgeKey, hm,
        has_edge_key_removeEdgeKey]
    · rw [if_neg hm]
      have hg2 := getGraph_setGraph (g.removeEdge e.src_id e.dst_id) hg
      simp [NmEdge.nonzero, NmEdge.is_multigraph, NmEdge.graphOf, hg2,
        exc_map_ok, exc_bind_ok, exc_pure, multigraph_removeEdge, hm,
        has_edge_removeEdge]

/-- Witness for C5: edge (A, B) of the simple overlay exists, and its
handle evaluates as false after the edge is removed. -/
theorem nmEdge_nonzero_iff_has_edge_witness :
    NmEdge.nonzero ⟨"phy", "A", "B", 0⟩ stW = .ok true ∧
    NmEdge.nonzero ⟨"phy", "A", "B", 0⟩
      (stW.setGraph "phy"
        (NxGraph.removeEdge ⟨false, [(("A", "B", 0), [])]⟩ "A" "B")) = .ok false := by
  have h := nmEdge_nonzero_iff_has_edge ⟨"phy", "A", "B", 0⟩ stW
    ⟨false, [(("A", "B", 0), [])]⟩ rfl
  exact ⟨by rw [h.1]; rfl, h.2⟩

/-- Counterexample for C7: the simple-graph handle (A, B) compared against
the integer 5 — a value of unsupported shape — silently returns false
instead of failing with a type-mismatch error. -/
theorem nmEdge_eq_type_mismatch_counterexample :
    NmEdge.pyEq ⟨"phy", "A", "B", 0⟩ stW (.atom (.vint 5)) = .ok false := rfl

/-- C7 amended: comparisons against unsupported shapes mostly return false
silently — a simple-graph handle returns false for any non-handle value,
and a multigraph handle returns false for a raw sequence whose length is
neither 2 nor 3; only a multigraph handle compared against a non-sequence
value fails, with a `TypeError` raised by `len(other)`. -/
theorem nmEdge_eq_unsupported_shapes (e1 e2 : NmEdge) (st : Anm) (v : Val)
    (xs : List Val) (h1 : e1.is_multigraph st = .ok false)
    (h2 : e2.is_multigraph st = .ok true)
    (hx2 : xs.length ≠ 2) (hx3 : xs.length ≠ 3) :
    e1.pyEq st (.atom v) = .ok false ∧
    e1.pyEq st (.tup xs) = .ok false ∧
    e2.pyEq st (.atom v) = .error .typeError ∧
    e2.pyEq st (.tup xs) = .ok false := by
  have hne2 : ∀ a b : Val, ¬([a, b] = xs) := fun a b hEq => hx2 (hEq ▸ rfl)
  refine ⟨?_, ?_, ?_, ?_⟩
  · simp [NmEdge.pyEq, h1, exc_bind_ok, exc_pure]
  · simp [NmEdge.pyEq, h1, exc_bind_ok, exc_pure, hne2]
  · simp [NmEdge.pyEq, h2, exc_bind_ok, exc_pure, throw, throwThe,
      MonadExceptOf.throw]
  · simp [NmEdge.pyEq, h2, exc_bind_ok, exc_pure, hx2, hx3, hne2]

/-- Witness for C7: concrete instances of each amended case. -/
theorem nmEdge_eq_unsupported_shapes_witness :
    NmEdge.pyEq ⟨"phy2", "A", "B", 0⟩ stW (.atom (.vint 5))
        = .error .typeError ∧
    NmEdge.pyEq ⟨"phy2", "A", "B", 0⟩ stW
        (.tup [.vnone, .vnone, .vnone, .vnone]) = .ok false := by
  have h := nmEdge_eq_unsupported_shapes ⟨"phy", "A", "B", 0⟩
    ⟨"phy2", "A", "B", 0⟩ stW (.vint 5) [.vnone, .vnone, .vnone, .vnone]
    rfl rfl (by decide) (by decide)
  exact ⟨h.2.2.1, h.2.2.2⟩

/-- C9: while the edge is present, `get` of an unset ordinary key returns
the absent-value marker (`None`) without raising; when the edge's
attribute record cannot be located, `get` instead fails with the
`KeyError` that represents MissingEdgeError. -/
theorem nmEdge_get_missing_key_vs_missing_edge (e : NmEdge) (st st2 : Anm)
    (d : AttrRecord) (k : String) (hown : isOwnAttrName k = false)
    (hd : e.dataOf st = .ok d) (hunset : recGet d k = none)
    (hgone : e.dataOf st2 = .error .keyError) :
    e.get st k = .ok (.val .vnone) ∧ e.get st2 k = .error .keyError := by
  constructor
  · rw [get_of_not_own hown]
    simp [hd, exc_bind_ok, exc_pure, hunset]
  · rw [get_of_not_own hown]
    simp [hgone, exc_bind_error]

/-- Witness for C9: key `bandwidth` is unset on the existing edge (A, B),
and the same lookup fails once the container no longer holds the edge. -/
theorem nmEdge_get_missing_key_vs_missing_edge_witness :
    NmEdge.get ⟨"phy", "A", "B", 0⟩ stW "bandwidth" = .ok (.val .vnone) ∧
    NmEdge.get ⟨"phy", "A", "B", 0⟩ ⟨[("phy", ⟨false, []⟩)]⟩ "bandwidth"
      = .error .keyError :=
  nmEdge_get_missing_key_vs_missing_edge ⟨"phy", "A", "B", 0⟩ stW
    ⟨[("phy", ⟨false, []⟩)]⟩ [] "bandwidth" rfl rfl rfl rfl

/-- C8: with a binding map recorded on the edge's record, `src_int` and
`dst_int` return an Interface Handle carrying the endpoint's bound
interface id, and fail with the `KeyError` representing
MissingBindingError when the endpoint's node id has no entry. -/
theorem nmEdge_src_dst_int_bindings (e : NmEdge) (st : Anm) (d : AttrRecord)
    (ps : List (String × String)) (hd : e.dataOf st = .ok d)
    (hp : recGet d "_ports" = some (.vdict ps)) :
    (dictGet ps e.src_id = none → e.src_int st = .error .keyError) ∧
    (∀ i, dictGet ps e.src_id = some i →
      e.src_int st = .ok ⟨e.overlay_id, e.src_id, i⟩) ∧
    (dictGet ps e.dst_id = none → e.dst_int st = .error .keyError) ∧
    (∀ i, dictGet ps e.dst_id = some i →
      e.dst_int st = .ok ⟨e.overlay_id, e.dst_id, i⟩) := by
  refine ⟨fun h => ?_, fun i h => ?_, fun h => ?_, fun i h => ?_⟩ <;>
    simp [NmEdge.src_int, NmEdge.dst_int, NmEdge.getPorts, hd, exc_bind_ok,
      exc_pure, hp, h, throw, throwThe, MonadExceptOf.throw]

/-- State with a partial port binding: only endpoint A is bound. -/
def stP : Anm :=
  ⟨[("phy", ⟨false,
      [(("A", "B", 0), [("_ports", .vdict [("A", "eth0")])])]⟩)]⟩

/-- Witness for C8: endpoint A resolves to its bound interface, endpoint B
has no binding and the accessor fails. -/
theorem nmEdge_src_dst_int_bindings_witness :
    NmEdge.src_int ⟨"phy", "A", "B", 0⟩ stP = .ok ⟨"phy", "A", "eth0"⟩ ∧
    NmEdge.dst_int ⟨"phy", "A", "B", 0⟩ stP = .error .keyError := by
  have h := nmEdge_src_dst_int_bindings ⟨"phy", "A", "B", 0⟩ stP
    [("_ports", .vdict [("A", "eth0")])] [("A", "eth0")] rfl rfl
  exact ⟨h.2.1 "eth0" rfl, h.2.2.1 rfl⟩

/-- State for the C10 counterexample: the record of edge (A, B) stores a
value under the key `src_int` and no `_ports` binding map. -/
def st10 : Anm :=
  ⟨[("phy", ⟨false, [(("A", "B", 0), [("src_int", .vstr "shadow")])]⟩)]⟩

/-- Counterexample for C10: `src_int` names an attribute (a property) of
the handle object, yet with no port binding recorded its getter raises,
Python-2 `hasattr` reports false, and `get('src_int')` consults the stored
attribute record — returning the record's value, not the handle's own
attribute. -/
theorem nmEdge_get_shadowed_property_counterexample :
    isOwnAttrName "src_int" = true ∧
    NmEdge.getattrOwn ⟨"phy", "A", "B", 0⟩ st10 "src_int"
      = some (.error .typeError) ∧
    NmEdge.get ⟨"phy", "A", "B", 0⟩ st10 "src_int" = .ok (.val (.vstr "shadow")) :=
  ⟨rfl, rfl, rfl⟩

/-- Names of handle attributes whose access never consults the store:
plain identity fields, the store and logger references, the two node
handles, and the bound methods. -/
def plainAttrNames : List String :=
  ["anm", "overlay_id", "src_id", "dst_id", "ekey", "log", "src", "dst"]
    ++ ownMethodNames

/-- C10 amended: `get(key)` returns the handle's own attribute whenever the
attribute access succeeds, and for the plain fields and methods the result
never depends on the store at all; but when a computed property's getter
raises (e.g. `src_int` with no binding), `get` falls back to the stored
attribute record. -/
theorem nmEdge_get_prefers_own_attrs (e : NmEdge) (st : Anm) (k : String)
    (o : PyObj) (h : e.getattrOwn st k = some (.ok o)) :
    e.get st k = .ok o ∧
    (∀ k2, k2 ∈ plainAttrNames → ∀ st1 st2 : Anm, e.get st1 k2 = e.get st2 k2) ∧
    (∀ st2 err, e.getattrOwn st2 k = some (.error err) →
      e.get st2 k = (e.dataOf st2 >>= fun d =>
        pure (.val ((recGet d k).getD .vnone)))) := by
  refine ⟨?_, ?_, ?_⟩
  · simp [NmEdge.get, NmEdge.hasattrB, h]
  · intro k2 hk2 st1 st2
    fin_cases hk2 <;> rfl
  · intro st2 err h2
    simp [NmEdge.get, NmEdge.hasattrB, h2]

/-- Witness for C10: `get('ekey')` returns the handle's own `ekey` field. -/
theorem nmEdge_get_prefers_own_attrs_witness :
    NmEdge.get ⟨"phy", "A", "B", 7⟩ stW "ekey" = .ok (.val (.vint 7)) :=
  (nmEdge_get_prefers_own_attrs ⟨"phy", "A", "B", 7⟩ stW "ekey"
    (.val (.vint 7)) rfl).1

/-- Counterexample for C3: setting the reserved key `raw_interfaces` routes
the value through the port-binding setter but then — the source has no
`return` or `else` after the setter call — additionally writes the value
through to the attribute record as an ordinary attribute under
`raw_interfaces` itself. -/
theorem nmEdge_set_raw_interfaces_counterexample :
    (NmEdge.set ⟨"phy", "A", "B", 0⟩ stW "raw_interfaces"
        (.vdict [("A", "eth0")])).map
      (fun st2 => (NmEdge.dataOf ⟨"phy", "A", "B", 0⟩ st2).map
        (fun d => recGet d "raw_interfaces"))
      = .ok (.ok (some (.vdict [("A", "eth0")]))) := rfl

/-- C3 amended: for an ordinary key (naming no attribute of the handle and
distinct from the reserved key) `set` followed by `get` returns the value
just written; for the reserved key `raw_interfaces`, `set` updates the
binding map stored under `_ports` AND additionally writes the value
through to the attribute record under `raw_interfaces`. -/
theorem nmEdge_set_get_roundtrip (e : NmEdge) (st st1 st2 : Anm) (k : String)
    (v : Val) (hown : isOwnAttrName k = false) (hk : k ≠ "raw_interfaces")
    (hset : e.set st k v = .ok st1)
    (hraw : e.set st "raw_interfaces" v = .ok st2) :
    e.get st1 k = .ok (.val v) ∧
    (e.dataOf st2).map (fun d => recGet d "_ports") = .ok (some v) ∧
    (e.dataOf st2).map (fun d => recGet d "raw_interfaces") = .ok (some v) := by
  unfold NmEdge.set at hset hraw
  rw [if_neg hk] at hset
  rw [exc_pure, exc_bind_ok] at hset
  rw [if_pos rfl] at hraw
  refine ⟨?_, ?_⟩
  · obtain ⟨r, -, hafter⟩ := dataSet_ok_dataOf hset
    rw [get_of_not_own hown, hafter, exc_bind_ok, exc_pure,
      recGet_recSet_self]
    rfl
  · cases hA : st.dataSet e "_ports" v with
    | error err => rw [hA, exc_bind_error] at hraw; exact absurd hraw (by simp)
    | ok sMid =>
      rw [hA, exc_bind_ok] at hraw
      obtain ⟨r, -, hmid⟩ := dataSet_ok_dataOf hA
      obtain ⟨r2, hmid2, hafter⟩ := dataSet_ok_dataOf hraw
      rw [hmid] at hmid2
      injection hmid2 with hr2
      subst hr2
      simp only [hafter, exc_map_ok]
      constructor
      · rw [recGet_recSet_ne _ _ _ _ (by decide), recGet_recSet_self]
      · rw [recGet_recSet_self]

/-- State after `set('bandwidth', v)` on edge (A, B) of `stW`. -/
def stW1 : Anm :=
  ⟨[("phy", ⟨false, [(("A", "B", 0),
      [("bandwidth", .vdict [("A", "eth0")])])]⟩),
    ("phy2", ⟨true, [(("A", "B", 0), []), (("A", "B", 1), [])]⟩)]⟩

/-- State after `set('raw_interfaces', v)` on edge (A, B) of `stW`. -/
def stW2 : Anm :=
  ⟨[("phy", ⟨false, [(("A", "B", 0),
      [("_ports", .vdict [("A", "eth0")]),
       ("raw_interfaces", .vdict [("A", "eth0")])])]⟩),
    ("phy2", ⟨true, [(("A", "B", 0), []), (("A", "B", 1), [])]⟩)]⟩

/-- Witness for C3: a concrete ordinary-key round trip and a concrete
reserved-key update of the binding map. -/
theorem nmEdge_set_get_roundtrip_witness :
    NmEdge.get ⟨"phy", "A", "B", 0⟩ stW1 "bandwidth"
      = .ok (.val (.vdict [("A", "eth0")])) ∧
    (NmEdge.dataOf ⟨"phy", "A", "B", 0⟩ stW2).map (fun d => recGet d "_ports")
      = .ok (some (.vdict [("A", "eth0")])) := by
  have h := nmEdge_set_get_roundtrip ⟨"phy", "A", "B", 0⟩ stW stW1 stW2
    "bandwidth" (.vdict [("A", "eth0")]) rfl (by decide) rfl rfl
  exact ⟨h.1, h.2.1⟩

/-- C4 (spec-modelled `_ports` resolution): after `bind_interface(node,
intf)` for an endpoint node, the corresponding interface accessor returns
an Interface Handle referencing `intf`; the binding for that node id is
recorded or overwritten in the `_ports` map. -/
theorem nmEdge_bind_interface_int (e : NmEdge) (st st1 st2 : Anm)
    (d : AttrRecord) (ps : List (String × String)) (n1 n2 : NmNode)
    (i1 i2 : String) (hd : e.dataOf st = .ok d)
    (hp : recGet d "_ports" = some (.vdict ps))
    (hn1 : n1.node_id = e.src_id) (hn2 : n2.node_id = e.dst_id)
    (hb1 : e.bind_interface st n1 i1 = .ok st1)
    (hb2 : e.bind_interface st n2 i2 = .ok st2) :
    e.src_int st1 = .ok ⟨e.overlay_id, e.src_id, i1⟩ ∧
    e.dst_int st2 = .ok ⟨e.overlay_id, e.dst_id, i2⟩ := by
  unfold NmEdge.bind_interface at hb1 hb2
  rw [hd, exc_bind_ok, hp] at hb1 hb2
  obtain ⟨r, hr, hafter1⟩ := dataSet_ok_dataOf hb1
  obtain ⟨r2, hr2, hafter2⟩ := dataSet_ok_dataOf hb2
  rw [hd] at hr hr2
  injection hr with hr
  injection hr2 with hr2
  subst hr
  subst hr2
  constructor
  · have hdg : dictGet (dictSet ps n1.node_id i1) e.src_id = some i1 := by
      rw [hn1]; exact dictGet_dictSet_self ps e.src_id i1
    simp only [NmEdge.src_int, NmEdge.getPorts, hafter1, exc_bind_ok, exc_pure,
      recGet_recSet_self, Option.getD_some, hdg]
  · have hdg : dictGet (dictSet ps n2.node_id i2) e.dst_id = some i2 := by
      rw [hn2]; exact dictGet_dictSet_self ps e.dst_id i2
    simp only [NmEdge.dst_int, NmEdge.getPorts, hafter2, exc_bind_ok, exc_pure,
      recGet_recSet_self, Option.getD_some, hdg]

/-- State whose edge (A, B) carries an empty port-binding map. -/
def stB : Anm :=
  ⟨[("phy", ⟨false, [(("A", "B", 0), [("_ports", .vdict [])])]⟩)]⟩

/-- The state `stB` after `bind_interface` of interface eth2 at endpoint A. -/
def stB1 : Anm :=
  ⟨[("phy", ⟨false, [(("A", "B", 0), [("_ports", .vdict [("A", "eth2")])])]⟩)]⟩

/-- The state `stB` after `bind_interface` of interface eth3 at endpoint B. -/
def stB2 : Anm :=
  ⟨[("phy", ⟨false, [(("A", "B", 0), [("_ports", .vdict [("B", "eth3")])])]⟩)]⟩

/-- Witness for C4: concrete bindings at both endpoints resolve through the
corresponding accessors. -/
theorem nmEdge_bind_interface_int_witness :
    NmEdge.src_int ⟨"phy", "A", "B", 0⟩ stB1 = .ok ⟨"phy", "A", "eth2"⟩ ∧
    NmEdge.dst_int ⟨"phy", "A", "B", 0⟩ stB2 = .ok ⟨"phy", "B", "eth3"⟩ :=
  nmEdge_bind_interface_int ⟨"phy", "A", "B", 0⟩ stB stB1 stB2
    [("_ports", .vdict [])] [] ⟨"phy", "A"⟩ ⟨"phy", "B"⟩ "eth2" "eth3"
    rfl rfl rfl rfl rfl rfl
